import Mathlib

/-!
# Verification of the quiz-platform state machine (`src/QuizPlatform.jsx`)

A shallow embedding of the quiz engine from `QuizPlatform.jsx`:
the session state held in the React component's `useState` hooks, the
answer-submission handler, the countdown-timer effect, question advance,
restart, and the history-persistence adapter.  Theorems below settle the
frozen specification claims.
-/

/-- One entry of the fixed `quizData` array: question text, optional
multiple-choice options (free-text questions have none), and the correct
answer string. -/
structure Question where
  question : String
  options : Option (List String)
  correctAnswer : String
deriving DecidableEq, Repr

/-- The fixed, order-significant question set (`quizData` in the source). -/
def quizData : List Question :=
  [ { question := "Which planet is closest to the Sun?",
      options := some ["Venus", "Mercury", "Earth", "Mars"],
      correctAnswer := "Mercury" },
    { question := "Which data structure organizes items in a First-In, First-Out (FIFO) manner?",
      options := some ["Stack", "Queue", "Tree", "Graph"],
      correctAnswer := "Queue" },
    { question := "Which of the following is primarily used for structuring web pages?",
      options := some ["Python", "Java", "HTML", "C++"],
      correctAnswer := "HTML" },
    { question := "Which chemical symbol stands for Gold?",
      options := some ["Au", "Gd", "Ag", "Pt"],
      correctAnswer := "Au" },
    { question := "Which of these processes is not typically involved in refining petroleum?",
      options := some ["Fractional distillation", "Cracking", "Polymerization", "Filtration"],
      correctAnswer := "Filtration" },
    { question := "What is the value of 12 + 28?", options := none, correctAnswer := "40" },
    { question := "How many states are there in the United States?",
      options := none, correctAnswer := "50" },
    { question := "In which year was the Declaration of Independence signed?",
      options := none, correctAnswer := "1776" },
    { question := "What is the value of pi rounded to the nearest integer?",
      options := none, correctAnswer := "3" },
    { question := "If a car travels at 60 mph for 2 hours, how many miles does it travel?",
      options := none, correctAnswer := "120" } ]

/-- Fallback question used to translate the partial JS array indexing
`quizData[currentQuestion]`; reachable states never index out of range. -/
def defaultQuestion : Question :=
  { question := "", options := none, correctAnswer := "" }

/-- Model of the JS builtin `String.prototype.toLowerCase` for the ASCII
strings this quiz uses: lowercases every character. -/
def jsToLowerCase (s : String) : String :=
  ⟨s.data.map Char.toLower⟩

/-- Model of the JS builtin `String.prototype.trim`: strips leading and
trailing whitespace characters. -/
def jsTrim (s : String) : String :=
  ⟨((s.data.dropWhile Char.isWhitespace).reverse.dropWhile Char.isWhitespace).reverse⟩

/-- One attempt-log record (`attemptRecord` object literals in the source). -/
structure AttemptRecord where
  question : String
  selectedAnswer : String
  isCorrect : Bool
  attemptNumber : Nat
  questionIndex : Nat
deriving DecidableEq, Repr

/-- The session state: the nine `useState` hooks of the `QuizPlatform`
component. -/
structure QuizState where
  currentQuestion : Nat
  feedback : String
  answeredCorrectly : Bool
  score : Nat
  attempts : List AttemptRecord
  currentAttempt : Nat
  timer : Nat
  quizFinished : Bool
  textAnswer : String
deriving DecidableEq, Repr

/-- The initial session state: the initial values of the `useState` hooks. -/
def initState : QuizState :=
  { currentQuestion := 0
    feedback := ""
    answeredCorrectly := false
    score := 0
    attempts := []
    currentAttempt := 0
    timer := 30
    quizFinished := false
    textAnswer := "" }

/-- The correctness judgment inside `handleAnswerSelection`: both the given
answer and the current question's `correctAnswer` are trimmed and lowercased,
then compared for exact equality (`givenAnswer === correctAnswer`). -/
def judgedCorrect (answer : String) (s : QuizState) : Bool :=
  jsToLowerCase (jsTrim answer) ==
    jsToLowerCase (jsTrim (quizData.getD s.currentQuestion defaultQuestion).correctAnswer)

/-- The `attemptRecord` object literal built by `handleAnswerSelection`:
the attempt number is the pre-increment counter plus one. -/
def submitRecord (answer : String) (s : QuizState) : AttemptRecord :=
  { question := (quizData.getD s.currentQuestion defaultQuestion).question
    selectedAnswer := answer
    isCorrect := judgedCorrect answer s
    attemptNumber := s.currentAttempt + 1
    questionIndex := s.currentQuestion }

/-- `handleAnswerSelection(answer)`: no-op once the current question is
answered correctly; otherwise increments the attempt counter, appends an
attempt record whose `isCorrect` compares both strings after `trim` and
`toLowerCase`, and on a correct answer sets the feedback, marks the question
answered, and increments the score. -/
def handleAnswerSelection (answer : String) (s : QuizState) : QuizState :=
  if s.answeredCorrectly then s
  else
    let s1 := { s with currentAttempt := s.currentAttempt + 1
                       attempts := s.attempts ++ [submitRecord answer s] }
    if judgedCorrect answer s then
      { s1 with feedback := "Correct!", answeredCorrectly := true, score := s1.score + 1 }
    else
      { s1 with feedback := "Incorrect, try again!" }

/-- `handleNextQuestion()`: resets per-question transient state and either
advances `currentQuestion` by one or, on the last question, sets
`quizFinished`. -/
def handleNextQuestion (s : QuizState) : QuizState :=
  let s1 := { s with currentAttempt := 0
                     feedback := ""
                     answeredCorrectly := false
                     timer := 30
                     textAnswer := "" }
  if s1.currentQuestion + 1 < quizData.length then
    { s1 with currentQuestion := s1.currentQuestion + 1 }
  else
    { s1 with quizFinished := true }

/-- The synthetic record appended on timer expiry with no attempt made. -/
def noAnswerRecord (s : QuizState) : AttemptRecord :=
  { question := (quizData.getD s.currentQuestion defaultQuestion).question
    selectedAnswer := "No Answer"
    isCorrect := false
    attemptNumber := 1
    questionIndex := s.currentQuestion }

/-- One run of the countdown-timer `useEffect` body: while the quiz is not
finished and the question not answered correctly, a positive timer counts
down by one; at zero, a "No Answer" record is synthesized when no attempt
was made, and the question advances. -/
def tickEffect (s : QuizState) : QuizState :=
  if s.quizFinished = false ∧ s.answeredCorrectly = false then
    if s.timer > 0 then { s with timer := s.timer - 1 }
    else
      let s1 :=
        if s.currentAttempt = 0 then
          { s with attempts := s.attempts ++ [noAnswerRecord s] }
        else s
      handleNextQuestion s1
  else s

/-- `restartQuiz()`: resets every state hook to its initial value. -/
def restartQuiz (_s : QuizState) : QuizState :=
  { currentQuestion := 0
    score := 0
    attempts := []
    timer := 30
    quizFinished := false
    feedback := ""
    answeredCorrectly := false
    currentAttempt := 0
    textAnswer := "" }

/-- The external events that can hit a live session: an answer submission
or a Next/Skip click (both only rendered while the quiz is not finished),
and a run of the countdown effect (which guards itself). -/
inductive Step : QuizState → QuizState → Prop
  | submit (a : String) (s : QuizState) (h : s.quizFinished = false) :
      Step s (handleAnswerSelection a s)
  | tick (s : QuizState) : Step s (tickEffect s)
  | advance (s : QuizState) (h : s.quizFinished = false) :
      Step s (handleNextQuestion s)

/-- Session states reachable from the initial state by submit/tick/advance
events (a single session: no restart). -/
inductive Reachable : QuizState → Prop
  | init : Reachable initState
  | step {s s' : QuizState} : Reachable s → Step s s' → Reachable s'

/-- A persisted history record (the `history` object saved on finish). -/
structure QuizHistoryEntry where
  timestamp : String
  score : Nat
  totalQuestions : Nat
  attempts : List AttemptRecord
deriving DecidableEq, Repr

/-- The `history` object built by the save-history effect when
`quizFinished` is true: current timestamp, score, the size of the fixed
question set, and the full attempt log. -/
def mkHistoryEntry (now : String) (s : QuizState) : QuizHistoryEntry :=
  { timestamp := now
    score := s.score
    totalQuestions := quizData.length
    attempts := s.attempts }

/-- The save-history `useEffect`: it fires when its dependencies change and
saves exactly when `quizFinished` holds; on the transition `old → new` this
appends one entry at the moment `quizFinished` becomes true (after the
finish, no dependency changes again until restart, and a restart clears
`quizFinished`). `now` is the wall-clock string `new Date().toISOString()`
supplied by the environment. -/
def historyEffect (now : String) (old new : QuizState)
    (h : List QuizHistoryEntry) : List QuizHistoryEntry :=
  if old.quizFinished = false ∧ new.quizFinished = true then
    h ++ [mkHistoryEntry now new]
  else h

/-- A session together with the persisted history collection. -/
structure World where
  session : QuizState
  history : List QuizHistoryEntry
deriving DecidableEq, Repr

/-- A world transition: a session step plus the save-history effect. -/
def worldStep (now : String) (w : World) (s' : QuizState) : World :=
  { session := s', history := historyEffect now w.session s' w.history }

/-- Restart as a world transition: the session resets and the save-history
effect fires with `quizFinished` back to false, so nothing is persisted. -/
def worldRestart (now : String) (w : World) : World :=
  worldStep now w (restartQuiz w.session)

/-- The possible outcomes of one `saveQuizHistory` call, abstracting the
IndexedDB environment: `openDB` may reject, the `quizHistory` transaction
may error (in which case the `add` does not commit), or the transaction
completes. -/
inductive PersistOutcome
  | openError
  | txnError
  | txnComplete
deriving DecidableEq, Repr

/-- The observable effect of one `saveQuizHistory` call: the contents of
the `quizHistory` object store, the `console.error` lines emitted, and
whether the success alert fired. -/
structure PersistEffect where
  stored : List QuizHistoryEntry
  errorLog : List String
  successAlert : Bool
deriving DecidableEq, Repr

/-- `saveQuizHistory(history)`: awaits `openDB` inside a try/catch (an open
rejection is caught and logged), issues a single `add` in one transaction,
logs a transaction error via `onerror`, and fires the success alert from
`oncomplete`. No path retries the write and no path throws. -/
def saveQuizHistory (entry : QuizHistoryEntry) (stored : List QuizHistoryEntry) :
    PersistOutcome → PersistEffect
  | .openError => { stored := stored, errorLog := ["Error in saveQuizHistory:"], successAlert := false }
  | .txnError => { stored := stored, errorLog := ["Error saving quiz history: "], successAlert := false }
  | .txnComplete => { stored := stored ++ [entry], errorLog := [], successAlert := true }

/-- The finish-time persistence call seen together with the session: the
session state is not an input the adapter can modify, so it is returned
unchanged regardless of outcome. -/
def saveQuizHistoryStep (s : QuizState) (entry : QuizHistoryEntry)
    (stored : List QuizHistoryEntry) (o : PersistOutcome) : QuizState × PersistEffect :=
  (s, saveQuizHistory entry stored o)

section RewriteLemmas

lemma submit_of_answered {s : QuizState} (a : String) (h : s.answeredCorrectly = true) :
    handleAnswerSelection a s = s := by
  simp [handleAnswerSelection, h]

lemma submit_of_correct {s : QuizState} (a : String) (h : s.answeredCorrectly = false)
    (hc : judgedCorrect a s = true) :
    handleAnswerSelection a s =
      { s with currentAttempt := s.currentAttempt + 1
               attempts := s.attempts ++ [submitRecord a s]
               feedback := "Correct!"
               answeredCorrectly := true
               score := s.score + 1 } := by
  simp [handleAnswerSelection, h, hc]

lemma submit_of_incorrect {s : QuizState} (a : String) (h : s.answeredCorrectly = false)
    (hc : judgedCorrect a s = false) :
    handleAnswerSelection a s =
      { s with currentAttempt := s.currentAttempt + 1
               attempts := s.attempts ++ [submitRecord a s]
               feedback := "Incorrect, try again!" } := by
  simp [handleAnswerSelection, h, hc]

lemma next_of_lt {s : QuizState} (h : s.currentQuestion + 1 < quizData.length) :
    handleNextQuestion s =
      { s with currentAttempt := 0, feedback := "", answeredCorrectly := false
               timer := 30, textAnswer := "", currentQuestion := s.currentQuestion + 1 } := by
  simp [handleNextQuestion, h]

lemma next_of_last {s : QuizState} (h : ¬ s.currentQuestion + 1 < quizData.length) :
    handleNextQuestion s =
      { s with currentAttempt := 0, feedback := "", answeredCorrectly := false
               timer := 30, textAnswer := "", quizFinished := true } := by
  simp [handleNextQuestion, h]

lemma next_attempts (s : QuizState) : (handleNextQuestion s).attempts = s.attempts := by
  by_cases h : s.currentQuestion + 1 < quizData.length
  · rw [next_of_lt h]
  · rw [next_of_last h]

lemma next_score (s : QuizState) : (handleNextQuestion s).score = s.score := by
  by_cases h : s.currentQuestion + 1 < quizData.length
  · rw [next_of_lt h]
  · rw [next_of_last h]

lemma tick_of_inactive {s : QuizState}
    (h : ¬ (s.quizFinished = false ∧ s.answeredCorrectly = false)) :
    tickEffect s = s := by
  simp only [tickEffect, if_neg h]

lemma tick_of_pos {s : QuizState} (h1 : s.quizFinished = false)
    (h2 : s.answeredCorrectly = false) (h : 0 < s.timer) :
    tickEffect s = { s with timer := s.timer - 1 } := by
  simp [tickEffect, h1, h2, h]

lemma tick_of_expiry_untouched {s : QuizState} (h1 : s.quizFinished = false)
    (h2 : s.answeredCorrectly = false) (h : s.timer = 0) (ha : s.currentAttempt = 0) :
    tickEffect s = handleNextQuestion { s with attempts := s.attempts ++ [noAnswerRecord s] } := by
  simp [tickEffect, h1, h2, h, ha]

lemma tick_of_expiry_attempted {s : QuizState} (h1 : s.quizFinished = false)
    (h2 : s.answeredCorrectly = false) (h : s.timer = 0) (ha : s.currentAttempt ≠ 0) :
    tickEffect s = handleNextQuestion s := by
  simp [tickEffect, h1, h2, h, ha]

lemma tick_score (s : QuizState) : (tickEffect s).score = s.score := by
  by_cases hg : s.quizFinished = false ∧ s.answeredCorrectly = false
  · by_cases ht : 0 < s.timer
    · rw [tick_of_pos hg.1 hg.2 ht]
    · have h0 : s.timer = 0 := Nat.eq_zero_of_not_pos ht
      by_cases ha : s.currentAttempt = 0
      · rw [tick_of_expiry_untouched hg.1 hg.2 h0 ha, next_score]
      · rw [tick_of_expiry_attempted hg.1 hg.2 h0 ha, next_score]
  · rw [tick_of_inactive hg]

end RewriteLemmas

section Invariant

/-- The inductive invariant of a live session: the index stays in range,
logged attempts never point past the current question, the score counts
the correct attempts, correct attempts hit pairwise-distinct questions, an
unanswered live question has no correct attempt yet, logged question
indices are non-decreasing, and a finished session sits on the last
question. -/
structure SessionInv (s : QuizState) : Prop where
  idx_lt : s.currentQuestion < quizData.length
  attempts_le : ∀ r ∈ s.attempts, r.questionIndex ≤ s.currentQuestion
  score_eq : s.score = (s.attempts.filter (fun r => r.isCorrect)).length
  correct_nodup :
    ((s.attempts.filter (fun r => r.isCorrect)).map (fun r => r.questionIndex)).Nodup
  no_correct_cur : s.answeredCorrectly = false → s.quizFinished = false →
    ∀ r ∈ s.attempts, r.isCorrect = true → r.questionIndex ≠ s.currentQuestion
  mono : (s.attempts.map (fun r => r.questionIndex)).Pairwise (· ≤ ·)
  fin_last : s.quizFinished = true → s.currentQuestion + 1 = quizData.length

lemma inv_init : SessionInv initState := by
  refine ⟨?_, ?_, ?_, ?_, ?_, ?_, ?_⟩ <;> simp [initState, quizData]

lemma inv_submit {s : QuizState} (a : String) (hf : s.quizFinished = false)
    (h : SessionInv s) : SessionInv (handleAnswerSelection a s) := by
  by_cases hans : s.answeredCorrectly = true
  · rw [submit_of_answered a hans]; exact h
  · have hans' : s.answeredCorrectly = false := by
      cases hb : s.answeredCorrectly
      · rfl
      · exact absurd hb hans
    by_cases hc : judgedCorrect a s = true
    · rw [submit_of_correct a hans' hc]
      refine ⟨h.idx_lt, ?_, ?_, ?_, ?_, ?_, ?_⟩
      · intro r hr
        rcases List.mem_append.1 hr with hr | hr
        · exact h.attempts_le r hr
        · rcases List.mem_singleton.1 hr with rfl
          exact Nat.le_refl _
      · simp [List.filter_append, submitRecord, hc, h.score_eq]
      · simp only [List.filter_append, List.map_append]
        rw [List.nodup_append]
        refine ⟨h.correct_nodup, ?_, ?_⟩
        · simp [submitRecord, hc]
        · intro x hx
          simp only [List.mem_map, List.mem_filter] at hx
          rcases hx with ⟨r, ⟨hrmem, hrc⟩, rfl⟩
          intro hy
          simp [submitRecord, hc] at hy
          exact h.no_correct_cur hans' hf r hrmem hrc hy
      · intro hcontra
        simp at hcontra
      · rw [List.map_append]
        rw [List.pairwise_append]
        refine ⟨h.mono, List.pairwise_singleton _ _, ?_⟩
        intro x hx y hy
        simp only [List.mem_map] at hx
        rcases hx with ⟨r, hrmem, rfl⟩
        simp only [List.map_cons, List.map_nil, List.mem_singleton] at hy
        subst hy
        simp only [submitRecord]
        exact h.attempts_le r hrmem
      · intro hfin
        exact absurd hfin (by simp [hf])
    · have hc' : judgedCorrect a s = false := by
        cases hb : judgedCorrect a s
        · rfl
        · exact absurd hb hc
      rw [submit_of_incorrect a hans' hc']
      refine ⟨h.idx_lt, ?_, ?_, ?_, ?_, ?_, ?_⟩
      · intro r hr
        rcases List.mem_append.1 hr with hr | hr
        · exact h.attempts_le r hr
        · rcases List.mem_singleton.1 hr with rfl
          exact Nat.le_refl _
      · simp [List.filter_append, submitRecord, hc', h.score_eq]
      · simp [List.filter_append, submitRecord, hc', h.correct_nodup]
      · intro _ _ r hr hrc
        rcases List.mem_append.1 hr with hr | hr
        · exact h.no_correct_cur hans' hf r hr hrc
        · rcases List.mem_singleton.1 hr with rfl
          simp [submitRecord, hc'] at hrc
      · rw [List.map_append, List.pairwise_append]
        refine ⟨h.mono, List.pairwise_singleton _ _, ?_⟩
        intro x hx y hy
        simp only [List.mem_map] at hx
        rcases hx with ⟨r, hrmem, rfl⟩
        simp only [List.map_cons, List.map_nil, List.mem_singleton] at hy
        subst hy
        simp only [submitRecord]
        exact h.attempts_le r hrmem
      · intro hfin
        exact absurd hfin (by simp [hf])

lemma inv_next {s : QuizState} (hf : s.quizFinished = false)
    (h : SessionInv s) : SessionInv (handleNextQuestion s) := by
  by_cases hlt : s.currentQuestion + 1 < quizData.length
  · rw [next_of_lt hlt]
    refine ⟨hlt, ?_, h.score_eq, h.correct_nodup, ?_, h.mono, ?_⟩
    · intro r hr
      exact Nat.le_succ_of_le (h.attempts_le r hr)
    · intro _ _ r hr _
      have := h.attempts_le r hr
      show r.questionIndex ≠ s.currentQuestion + 1
      omega
    · intro hfin
      exact absurd hfin (by simp [hf])
  · rw [next_of_last hlt]
    refine ⟨h.idx_lt, h.attempts_le, h.score_eq, h.correct_nodup, ?_, h.mono, ?_⟩
    · intro _ hfin
      simp at hfin
    · intro _
      have := h.idx_lt
      show s.currentQuestion + 1 = quizData.length
      omega

lemma inv_expiry_append {s : QuizState} (hf : s.quizFinished = false)
    (h : SessionInv s) :
    SessionInv { s with attempts := s.attempts ++ [noAnswerRecord s] } := by
  refine ⟨h.idx_lt, ?_, ?_, ?_, ?_, ?_, ?_⟩
  · intro r hr
    rcases List.mem_append.1 hr with hr | hr
    · exact h.attempts_le r hr
    · rcases List.mem_singleton.1 hr with rfl
      exact Nat.le_refl _
  · simp [List.filter_append, noAnswerRecord, h.score_eq]
  · simp [List.filter_append, noAnswerRecord, h.correct_nodup]
  · intro hans hfin r hr hrc
    rcases List.mem_append.1 hr with hr | hr
    · exact h.no_correct_cur hans hfin r hr hrc
    · rcases List.mem_singleton.1 hr with rfl
      simp [noAnswerRecord] at hrc
  · rw [List.map_append, List.pairwise_append]
    refine ⟨h.mono, List.pairwise_singleton _ _, ?_⟩
    intro x hx y hy
    simp only [List.mem_map] at hx
    rcases hx with ⟨r, hrmem, rfl⟩
    simp only [List.map_cons, List.map_nil, List.mem_singleton] at hy
    subst hy
    simp only [noAnswerRecord]
    exact h.attempts_le r hrmem
  · intro hfin
    exact absurd hfin (by simp [hf])

lemma inv_tick {s : QuizState} (h : SessionInv s) : SessionInv (tickEffect s) := by
  by_cases hg : s.quizFinished = false ∧ s.answeredCorrectly = false
  · by_cases ht : 0 < s.timer
    · rw [tick_of_pos hg.1 hg.2 ht]
      exact ⟨h.idx_lt, h.attempts_le, h.score_eq, h.correct_nodup,
        h.no_correct_cur, h.mono, h.fin_last⟩
    · have h0 : s.timer = 0 := Nat.eq_zero_of_not_pos ht
      by_cases ha : s.currentAttempt = 0
      · rw [tick_of_expiry_untouched hg.1 hg.2 h0 ha]
        exact inv_next hg.1 (inv_expiry_append hg.1 h)
      · rw [tick_of_expiry_attempted hg.1 hg.2 h0 ha]
        exact inv_next hg.1 h
  · rw [tick_of_inactive hg]
    exact h

lemma inv_reachable {s : QuizState} (h : Reachable s) : SessionInv s := by
  induction h with
  | init => exact inv_init
  | step _ hstep ih =>
    cases hstep with
    | submit a s hf => exact inv_submit a hf ih
    | tick s => exact inv_tick ih
    | advance s hf => exact inv_next hf ih

lemma submit_attempts (a : String) (s : QuizState) :
    (handleAnswerSelection a s).attempts = s.attempts ∨
      (handleAnswerSelection a s).attempts = s.attempts ++ [submitRecord a s] := by
  cases hans : s.answeredCorrectly with
  | true =>
    left
    rw [submit_of_answered a hans]
  | false =>
    right
    cases hc : judgedCorrect a s with
    | true => rw [submit_of_correct a hans hc]
    | false => rw [submit_of_incorrect a hans hc]

lemma step_attempts_append {s s' : QuizState} (h : Step s s') :
    ∃ l, s'.attempts = s.attempts ++ l := by
  cases h with
  | submit a s hf =>
    rcases submit_attempts a s with h | h
    · exact ⟨[], by simp [h]⟩
    · exact ⟨[submitRecord a s], h⟩
  | tick s =>
    by_cases hg : s.quizFinished = false ∧ s.answeredCorrectly = false
    · by_cases ht : 0 < s.timer
      · rw [tick_of_pos hg.1 hg.2 ht]
        exact ⟨[], by simp⟩
      · have h0 : s.timer = 0 := Nat.eq_zero_of_not_pos ht
        by_cases ha : s.currentAttempt = 0
        · rw [tick_of_expiry_untouched hg.1 hg.2 h0 ha, next_attempts]
          exact ⟨[noAnswerRecord s], rfl⟩
        · rw [tick_of_expiry_attempted hg.1 hg.2 h0 ha, next_attempts]
          exact ⟨[], by simp⟩
    · rw [tick_of_inactive hg]
      exact ⟨[], by simp⟩
  | advance s hf =>
    rw [next_attempts]
    exact ⟨[], by simp⟩

end Invariant

section FieldLemmas

lemma next_currentQuestion_lt {s : QuizState} (h : s.currentQuestion + 1 < quizData.length) :
    (handleNextQuestion s).currentQuestion = s.currentQuestion + 1 := by
  rw [next_of_lt h]

lemma next_finished_lt {s : QuizState} (h : s.currentQuestion + 1 < quizData.length) :
    (handleNextQuestion s).quizFinished = s.quizFinished := by
  rw [next_of_lt h]

lemma next_finished_last {s : QuizState} (h : ¬ s.currentQuestion + 1 < quizData.length) :
    (handleNextQuestion s).quizFinished = true := by
  rw [next_of_last h]

/-- The session sitting on the last question after nine user skips. -/
def lastQuestionState : QuizState := handleNextQuestion^[9] initState

/-- A question-0 session whose countdown has hit zero with no attempt yet. -/
def expiryExample : QuizState := { initState with timer := 0 }

end FieldLemmas

/-- C1: in every session reachable by submit/tick/advance events, the score
equals the number of distinct question indices carrying at least one correct
attempt, and the correct attempts hit pairwise-distinct question indices, so
at most one correct attempt per question contributes. -/
theorem score_counts_distinct_correct_questions :
    ∀ s : QuizState, Reachable s →
      s.score = (((s.attempts.filter (fun r => r.isCorrect)).map
          (fun r => r.questionIndex)).dedup).length ∧
      ((s.attempts.filter (fun r => r.isCorrect)).map (fun r => r.questionIndex)).Nodup := by
  intro s h
  have hinv := inv_reachable h
  refine ⟨?_, hinv.correct_nodup⟩
  rw [List.dedup_eq_self.2 hinv.correct_nodup, List.length_map]
  exact hinv.score_eq

/-- Witness for C1 at the session that answered question 0 correctly. -/
theorem score_counts_distinct_correct_questions_witness :
    (handleAnswerSelection "Mercury" initState).score =
      ((((handleAnswerSelection "Mercury" initState).attempts.filter
          (fun r => r.isCorrect)).map (fun r => r.questionIndex)).dedup).length ∧
    (((handleAnswerSelection "Mercury" initState).attempts.filter
        (fun r => r.isCorrect)).map (fun r => r.questionIndex)).Nodup :=
  score_counts_distinct_correct_questions _
    (Reachable.step Reachable.init (Step.submit "Mercury" initState rfl))

/-- C2: a submission on an unanswered question appends exactly one record
whose correctness is exact string equality after trimming and lowercasing
both sides; " Mercury " and "MERCURY" are judged correct on question 0 and
the partial strings "Mercur" and "Merc" are not. -/
theorem submit_judged_by_normalized_equality :
    (∀ (s : QuizState) (a : String), s.answeredCorrectly = false →
      (handleAnswerSelection a s).attempts = s.attempts ++ [submitRecord a s] ∧
      ((submitRecord a s).isCorrect = true ↔
        jsToLowerCase (jsTrim a) =
          jsToLowerCase (jsTrim
            (quizData.getD s.currentQuestion defaultQuestion).correctAnswer))) ∧
    (handleAnswerSelection " Mercury " initState).answeredCorrectly = true ∧
    (handleAnswerSelection "MERCURY" initState).answeredCorrectly = true ∧
    (handleAnswerSelection "Mercur" initState).answeredCorrectly = false ∧
    (handleAnswerSelection "Merc" initState).answeredCorrectly = false := by
  refine ⟨?_, by decide, by decide, by decide, by decide⟩
  intro s a h
  constructor
  · cases hc : judgedCorrect a s with
    | true => rw [submit_of_correct a h hc]
    | false => rw [submit_of_incorrect a h hc]
  · simp [submitRecord, judgedCorrect]

/-- Witness for C2: the incorrect submission "Venus" on question 0. -/
theorem submit_judged_by_normalized_equality_witness :
    (handleAnswerSelection "Venus" initState).attempts =
      initState.attempts ++ [submitRecord "Venus" initState] ∧
    ((submitRecord "Venus" initState).isCorrect = true ↔
      jsToLowerCase (jsTrim "Venus") =
        jsToLowerCase (jsTrim
          (quizData.getD initState.currentQuestion defaultQuestion).correctAnswer)) :=
  submit_judged_by_normalized_equality.1 initState "Venus" rfl

/-- C3: a "No Answer" record (selectedAnswer "No Answer", isCorrect false,
attemptNumber 1) is appended exactly when the timer expires with zero
attempts on the current question, after which the index advances by one or
the session finishes on the last question; expiry after an attempt, a
running timer, and a user skip all append nothing. -/
theorem no_answer_record_iff_expiry_without_attempt :
    ∀ s : QuizState,
      (s.quizFinished = false → s.answeredCorrectly = false → s.timer = 0 →
        s.currentAttempt = 0 →
        (tickEffect s).attempts = s.attempts ++ [noAnswerRecord s] ∧
        (noAnswerRecord s).selectedAnswer = "No Answer" ∧
        (noAnswerRecord s).isCorrect = false ∧
        (noAnswerRecord s).attemptNumber = 1 ∧
        (s.currentQuestion + 1 < quizData.length →
          (tickEffect s).currentQuestion = s.currentQuestion + 1 ∧
          (tickEffect s).quizFinished = false) ∧
        (¬ s.currentQuestion + 1 < quizData.length →
          (tickEffect s).quizFinished = true)) ∧
      (s.quizFinished = false → s.answeredCorrectly = false → s.timer = 0 →
        s.currentAttempt ≠ 0 → (tickEffect s).attempts = s.attempts) ∧
      (0 < s.timer → (tickEffect s).attempts = s.attempts) ∧
      (handleNextQuestion s).attempts = s.attempts := by
  intro s
  refine ⟨?_, ?_, ?_, next_attempts s⟩
  · intro hf hans ht ha
    rw [tick_of_expiry_untouched hf hans ht ha]
    refine ⟨by rw [next_attempts], rfl, rfl, rfl, ?_, ?_⟩
    · intro hlt
      refine ⟨next_currentQuestion_lt hlt, ?_⟩
      have h2 := next_finished_lt
        (s := { s with attempts := s.attempts ++ [noAnswerRecord s] }) hlt
      exact h2.trans hf
    · intro hlast
      exact next_finished_last hlast
  · intro hf hans ht ha
    rw [tick_of_expiry_attempted hf hans ht ha, next_attempts]
  · intro ht
    by_cases hg : s.quizFinished = false ∧ s.answeredCorrectly = false
    · rw [tick_of_pos hg.1 hg.2 ht]
    · rw [tick_of_inactive hg]

/-- Witness for C3: expiry on question 0 with no attempt made. -/
theorem no_answer_record_iff_expiry_without_attempt_witness :
    (tickEffect expiryExample).attempts =
      expiryExample.attempts ++ [noAnswerRecord expiryExample] ∧
    (tickEffect expiryExample).currentQuestion = 1 ∧
    (tickEffect expiryExample).quizFinished = false := by
  have h := (no_answer_record_iff_expiry_without_attempt expiryExample).1 rfl rfl rfl rfl
  exact ⟨h.1, (h.2.2.2.2.1 (by decide)).1, (h.2.2.2.2.1 (by decide)).2⟩

/-- C4: a world transition whose session step makes `quizFinished` true
appends exactly one history entry carrying the supplied timestamp, the final
score, totalQuestions = 10 (the size of the fixed question set), and the
full attempt log; any other transition leaves the history untouched, and the
history only ever grows by appending. -/
theorem history_entry_on_finish :
    ∀ (now : String) (w : World) (s' : QuizState), Step w.session s' →
      (w.session.quizFinished = false → s'.quizFinished = true →
        (worldStep now w s').history = w.history ++
          [{ timestamp := now, score := s'.score,
             totalQuestions := quizData.length, attempts := s'.attempts }] ∧
        quizData.length = 10) ∧
      (¬ (w.session.quizFinished = false ∧ s'.quizFinished = true) →
        (worldStep now w s').history = w.history) ∧
      ∃ l, (worldStep now w s').history = w.history ++ l := by
  intro now w s' _
  refine ⟨?_, ?_, ?_⟩
  · intro h1 h2
    refine ⟨?_, rfl⟩
    simp [worldStep, historyEffect, h1, h2, mkHistoryEntry]
  · intro h
    simp only [worldStep, historyEffect, if_neg h]
  · by_cases hc : w.session.quizFinished = false ∧ s'.quizFinished = true
    · exact ⟨[mkHistoryEntry now s'], by simp [worldStep, historyEffect, hc]⟩
    · exact ⟨[], by simp [worldStep, historyEffect, hc]⟩

/-- Witness for C4: advancing past the last question from an empty history
persists exactly one entry. -/
theorem history_entry_on_finish_witness :
    (worldStep "t" ⟨lastQuestionState, []⟩ (handleNextQuestion lastQuestionState)).history =
      [] ++ [{ timestamp := "t", score := (handleNextQuestion lastQuestionState).score,
               totalQuestions := quizData.length,
               attempts := (handleNextQuestion lastQuestionState).attempts }] ∧
    quizData.length = 10 :=
  (history_entry_on_finish "t" ⟨lastQuestionState, []⟩ (handleNextQuestion lastQuestionState)
      (Step.advance lastQuestionState (by decide))).1 (by decide) (by decide)

/-- C5: from any prior session state, `restartQuiz` restores exactly the
initial state (index 0, score 0, empty log, timer 30, not finished, counter
0), and as a world transition it leaves the persisted history unchanged. -/
theorem restart_resets :
    ∀ (s : QuizState) (now : String) (w : World),
      restartQuiz s = initState ∧ worldRestart now w = ⟨initState, w.history⟩ := by
  intro s now w
  refine ⟨rfl, ?_⟩
  simp [worldRestart, worldStep, historyEffect, restartQuiz, initState]

/-- C6: submitting any answer while the current question is already
answered correctly is a complete no-op on the session state. -/
theorem submit_noop_when_answered :
    ∀ (a : String) (s : QuizState), s.answeredCorrectly = true →
      handleAnswerSelection a s = s :=
  fun a _ h => submit_of_answered a h

/-- Witness for C6: resubmitting after question 0 was answered correctly. -/
theorem submit_noop_when_answered_witness :
    handleAnswerSelection "Queue" (handleAnswerSelection "Mercury" initState) =
      handleAnswerSelection "Mercury" initState :=
  submit_noop_when_answered "Queue" _ (by decide)

/-- C7 counterexample: advance does not strictly increase the question
index by one on every reachable live state — on the last question (a
reachable state after nine skips) the index stays at 9 while the session
finishes. -/
theorem advance_increment_counterexample :
    ¬ (∀ s : QuizState, Reachable s → s.quizFinished = false →
        (handleNextQuestion s).currentQuestion = s.currentQuestion + 1) := by
  intro hclaim
  have r0 : Reachable initState := Reachable.init
  have r1 : Reachable (handleNextQuestion initState) :=
    Reachable.step r0 (Step.advance _ (by decide))
  have r2 : Reachable (handleNextQuestion (handleNextQuestion initState)) :=
    Reachable.step r1 (Step.advance _ (by decide))
  have r3 : Reachable (handleNextQuestion (handleNextQuestion (handleNextQuestion initState))) :=
    Reachable.step r2 (Step.advance _ (by decide))
  have r4 : Reachable (handleNextQuestion (handleNextQuestion (handleNextQuestion
      (handleNextQuestion initState)))) :=
    Reachable.step r3 (Step.advance _ (by decide))
  have r5 : Reachable (handleNextQuestion (handleNextQuestion (handleNextQuestion
      (handleNextQuestion (handleNextQuestion initState))))) :=
    Reachable.step r4 (Step.advance _ (by decide))
  have r6 : Reachable (handleNextQuestion (handleNextQuestion (handleNextQuestion
      (handleNextQuestion (handleNextQuestion (handleNextQuestion initState)))))) :=
    Reachable.step r5 (Step.advance _ (by decide))
  have r7 : Reachable (handleNextQuestion (handleNextQuestion (handleNextQuestion
      (handleNextQuestion (handleNextQuestion (handleNextQuestion
        (handleNextQuestion initState))))))) :=
    Reachable.step r6 (Step.advance _ (by decide))
  have r8 : Reachable (handleNextQuestion (handleNextQuestion (handleNextQuestion
      (handleNextQuestion (handleNextQuestion (handleNextQuestion (handleNextQuestion
        (handleNextQuestion initState)))))))) :=
    Reachable.step r7 (Step.advance _ (by decide))
  have r9 : Reachable (handleNextQuestion (handleNextQuestion (handleNextQuestion
      (handleNextQuestion (handleNextQuestion (handleNextQuestion (handleNextQuestion
        (handleNextQuestion (handleNextQuestion initState))))))))) :=
    Reachable.step r8 (Step.advance _ (by decide))
  have hr : Reachable lastQuestionState := r9
  have h := hclaim lastQuestionState hr (by decide)
  exact absurd h (by decide)

/-- C7 amended: in every reachable state the question index stays strictly
below the question count (hence within [0, questionCount] and never equal
to questionCount); advance increments the index by exactly one except on
the last question, where it leaves the index unchanged and sets finished;
a finished session sits on the last valid index. -/
theorem advance_bounds_amended :
    ∀ s : QuizState, Reachable s →
      s.currentQuestion < quizData.length ∧
      (s.quizFinished = true → s.currentQuestion + 1 = quizData.length) ∧
      (s.currentQuestion + 1 < quizData.length →
        (handleNextQuestion s).currentQuestion = s.currentQuestion + 1) ∧
      (¬ s.currentQuestion + 1 < quizData.length →
        (handleNextQuestion s).currentQuestion = s.currentQuestion ∧
        (handleNextQuestion s).quizFinished = true) := by
  intro s h
  have hinv := inv_reachable h
  refine ⟨hinv.idx_lt, hinv.fin_last, ?_, ?_⟩
  · intro hlt
    exact next_currentQuestion_lt hlt
  · intro hlast
    rw [next_of_last hlast]
    exact ⟨rfl, rfl⟩

/-- Witness for the amended C7 at the initial state. -/
theorem advance_bounds_amended_witness :
    initState.currentQuestion < quizData.length ∧
    (initState.quizFinished = true → initState.currentQuestion + 1 = quizData.length) ∧
    (initState.currentQuestion + 1 < quizData.length →
      (handleNextQuestion initState).currentQuestion = initState.currentQuestion + 1) ∧
    (¬ initState.currentQuestion + 1 < quizData.length →
      (handleNextQuestion initState).currentQuestion = initState.currentQuestion ∧
      (handleNextQuestion initState).quizFinished = true) :=
  advance_bounds_amended initState Reachable.init

/-- C8: in every reachable session the logged question indices are
non-decreasing in log order, and every further submit/tick/advance event
only appends to the attempt log, never mutating or removing records. -/
theorem attempts_append_only_and_monotone :
    ∀ s : QuizState, Reachable s →
      ((s.attempts.map (fun r => r.questionIndex)).Pairwise (· ≤ ·)) ∧
      ∀ s' : QuizState, Step s s' → ∃ l, s'.attempts = s.attempts ++ l := by
  intro s h
  exact ⟨(inv_reachable h).mono, fun _ hs => step_attempts_append hs⟩

/-- Witness for C8 at the initial state and a first submission. -/
theorem attempts_append_only_and_monotone_witness :
    ((initState.attempts.map (fun r => r.questionIndex)).Pairwise (· ≤ ·)) ∧
    ∃ l, (handleAnswerSelection "Venus" initState).attempts = initState.attempts ++ l :=
  ⟨(attempts_append_only_and_monotone initState Reachable.init).1,
   (attempts_append_only_and_monotone initState Reachable.init).2 _
     (Step.submit "Venus" initState rfl)⟩

/-- C9: when the history write fails (open rejection or transaction error),
the session state is untouched, nothing is stored, no retry happens (the
store contents are exactly the prior contents), exactly one error line is
logged, and no success alert fires. -/
theorem persistence_failure_nonfatal :
    ∀ (s : QuizState) (entry : QuizHistoryEntry) (stored : List QuizHistoryEntry)
      (o : PersistOutcome), o ≠ PersistOutcome.txnComplete →
      (saveQuizHistoryStep s entry stored o).1 = s ∧
      (saveQuizHistoryStep s entry stored o).2.stored = stored ∧
      (saveQuizHistoryStep s entry stored o).2.errorLog.length = 1 ∧
      (saveQuizHistoryStep s entry stored o).2.successAlert = false := by
  intro s entry stored o ho
  cases o with
  | openError => exact ⟨rfl, rfl, rfl, rfl⟩
  | txnError => exact ⟨rfl, rfl, rfl, rfl⟩
  | txnComplete => exact absurd rfl ho

/-- Witness for C9: an open failure while saving the initial session's
summary. -/
theorem persistence_failure_nonfatal_witness :
    (saveQuizHistoryStep initState (mkHistoryEntry "t" initState) []
        PersistOutcome.openError).1 = initState ∧
    (saveQuizHistoryStep initState (mkHistoryEntry "t" initState) []
        PersistOutcome.openError).2.stored = [] ∧
    (saveQuizHistoryStep initState (mkHistoryEntry "t" initState) []
        PersistOutcome.openError).2.errorLog.length = 1 ∧
    (saveQuizHistoryStep initState (mkHistoryEntry "t" initState) []
        PersistOutcome.openError).2.successAlert = false :=
  persistence_failure_nonfatal initState (mkHistoryEntry "t" initState) []
    PersistOutcome.openError (by decide)

/-- C10: within a session, submit leaves the score unchanged or raises it
by exactly one, and tick and advance never change it, so the score is
monotone under every operation except restart. -/
theorem score_monotone_per_operation :
    ∀ (s : QuizState) (a : String),
      ((handleAnswerSelection a s).score = s.score ∨
        (handleAnswerSelection a s).score = s.score + 1) ∧
      (tickEffect s).score = s.score ∧
      (handleNextQuestion s).score = s.score := by
  intro s a
  refine ⟨?_, tick_score s, next_score s⟩
  cases hans : s.answeredCorrectly with
  | true =>
    left
    rw [submit_of_answered a hans]
  | false =>
    cases hc : judgedCorrect a s with
    | true =>
      right
      rw [submit_of_correct a hans hc]
    | false =>
      left
      rw [submit_of_incorrect a hans hc]
